import Mathlib

/-!
# Verification of the llms protocol-translation gateway

A shallow embedding of the transformer layer of the `llms` repository
(`src/transformer/*.ts`) together with proofs of the behavioural claims
about it.  Every definition is translated from the TypeScript source;
JavaScript runtime primitives (`JSON.parse`, `JSON.stringify`,
`TextDecoder`) are modelled as explicit parameters or as total stand-in
functions where their exact output is irrelevant to the properties proved.

JavaScript values that flow through the untyped parts of the code are
modelled by small inductive types that keep track of the distinctions the
code actually inspects (`null` vs `undefined` vs string vs other, and JS
truthiness).  Machine integers do not overflow in any of the code paths
modelled here (token counts stay far below 2^53), so `Nat` is used
directly.
-/

namespace Llms

/-! ## JavaScript-style string utilities

`subOccurs pat s` is `String.prototype.includes`: does `pat` occur as a
contiguous substring of `s`?  Implemented by direct recursion so that it
reduces in the kernel. -/

/-- Does the character list `pat` occur as a contiguous sublist of `s`?
(JS `String.prototype.includes` on the underlying characters.) -/
def subOccurs (pat : List Char) : List Char → Bool
  | [] => pat.isEmpty
  | c :: rest => List.isPrefixOf pat (c :: rest) || subOccurs pat rest

/-- JS `s.includes(pat)`. -/
def containsSub (s pat : String) : Bool :=
  subOccurs pat.data s.data

/-- JS `||` on an optional numeric field with `0` falsy:
`a || d`. -/
def jsOrNum (a : Option Nat) (d : Nat) : Nat :=
  match a with
  | some n => if n = 0 then d else n
  | none => d

/-- JS `String.prototype.toLowerCase` (ASCII range, which is all the code
compares against).  Implemented on the character list so that it reduces
in the kernel. -/
def lowerStr (s : String) : String :=
  ⟨s.data.map Char.toLower⟩

/-- `Math.max` on the token counts appearing in the source (all
non-negative integers). -/
def jsMax (a b : Nat) : Nat := if a < b then b else a

/-! ## Token Budget Calculator (`responses-api-v2.transformer.ts`,
`calculateOptimalTokens`, lines 452–506)

The per-model capability table `MODEL_TOKEN_LIMITS` and the overhead
computation are translated field by field.  The request fields consumed by
the source function are passed explicitly: `max_tokens`,
`max_completion_tokens` (both optional, `0` falsy under JS `||`), the tool
list (modelled by its length, `none` when the field is absent) and the
message count. -/

/-- `MODEL_TOKEN_LIMITS` lookup: exact key match on the (lowercased) model
name, falling back to `default`.  Values from the first revision of
`responses-api-v2.transformer.ts` (lines 46–53). -/
def modelTokenLimit (m : String) : Nat :=
  if m = "o3" then 100000
  else if m = "o3-mini" then 16384
  else if m = "o4-mini" then 32768
  else if m = "gpt-4.1" then 32767
  else if m = "gpt-4o" then 32767
  else 16384

/-- `isReasoningModel` (lines 1037–1042): the lowercased model name
contains `o1`, `o3` or `o4`. -/
def isReasoningModel (model : String) : Bool :=
  containsSub (lowerStr model) "o1" || containsSub (lowerStr model) "o3" ||
    containsSub (lowerStr model) "o4"

/-- The transformer options relevant to the token calculation; the
constructor default mirrors the constructor of `ResponsesApiV2Transformer`
(`minTokensForTools: 15000`). -/
structure TokenOptions where
  minTokensForTools : Nat

/-- The options produced by `new ResponsesApiV2Transformer()` with no
overrides. -/
def defaultTokenOptions : TokenOptions := ⟨15000⟩

/-- `calculateOptimalTokens` (lines 452–506).  `tools` is
`request.tools?.length` (`none` when the field is absent);
`hasTools = request.tools && request.tools.length > 0`. -/
def calculateOptimalTokens (opts : TokenOptions) (model0 : String)
    (maxTok maxCompTok : Option Nat) (tools : Option Nat)
    (messageCount : Nat) : Nat :=
  let baseTokens := jsOrNum maxTok (jsOrNum maxCompTok 4000)
  let toolCount := tools.getD 0
  let hasTools := decide (0 < toolCount)
  let model := lowerStr model0
  let toolOverhead := if hasTools then toolCount * 2000 + 5000 else 0
  let reasoningOverhead :=
    if isReasoningModel model then (if containsSub model "o4" then 10000 else 5000)
    else 0
  let historyOverhead := if messageCount > 5 then messageCount * 200 else 0
  let total0 := baseTokens + toolOverhead + reasoningOverhead + historyOverhead
  let total1 := if hasTools then jsMax total0 opts.minTokensForTools else total0
  let total2 :=
    if containsSub model "o4-mini" then jsMax total1 25000
    else if containsSub model "o3" then jsMax total1 15000
    else total1
  let modelMax := modelTokenLimit model
  if total2 > modelMax then modelMax else total2

/-! ## Role-based content typing

`getContentType` (`responses-api-v2.transformer.ts` lines 381–390, identical
in both revisions of the file) and the message encoder of the first-generation
`responses-api.transformer.ts` (`transformMessages`, lines 44–82). -/

/-- `getContentType` — the switch over the message role. -/
def getContentType (role : String) : String :=
  match role with
  | "assistant" => "output_text"
  | _ => "input_text"

/-- A content item of an incoming canonical message as inspected by the
first-generation encoder: a bare string, a `text` block, an `image` block,
a `tool_use` block, a `tool_result` block, or anything else (carrying its
`type` tag and an opaque payload). -/
inductive RawItem where
  | rstr (s : String)
  | rtext (text : String)
  | rimage (payload : String)
  | rtoolUse (payload : String)
  | rtoolResult (payload : String)
  | rother (ty : String) (payload : String)
deriving DecidableEq

/-- The `content` field of an incoming message: a string, an array of
items, or any other value (passed through unchanged by the encoder). -/
inductive RawContent where
  | rcstr (s : String)
  | rcarr (items : List RawItem)
  | rcother (payload : String)
deriving DecidableEq

/-- An incoming canonical message as seen by the v1 encoder. -/
structure RawMessage where
  role : String
  content : RawContent
deriving DecidableEq

/-- An encoded content item produced by the v1 encoder: a typed text item,
a typed image item, or an input item passed through untouched
(`tool_use` / `tool_result` / unknown types). -/
inductive V1Item where
  | vtext (ty : String) (text : String)
  | vimage (ty : String) (payload : String)
  | vpass (item : RawItem)
deriving DecidableEq

/-- Encoded message content: the mapped array, or the original non-array
content passed through (`transformed.content = msg.content`). -/
inductive V1Content where
  | varr (items : List V1Item)
  | vraw (payload : String)
deriving DecidableEq

/-- The per-item mapping of `transformMessages`
(`responses-api.transformer.ts` lines 58–75). -/
def transformItemV1 (role : String) (item : RawItem) : V1Item :=
  let contentType := if role = "assistant" then "output_text" else "input_text"
  match item with
  | .rstr s => .vtext contentType s
  | .rtext t => .vtext contentType t
  | .rimage p => .vimage (if role = "assistant" then "output_image" else "input_image") p
  | .rtoolUse _ => .vpass item
  | .rtoolResult _ => .vpass item
  | .rother _ _ => .vpass item

/-- `transformMessages` for one message
(`responses-api.transformer.ts` lines 45–81): role is kept, string content
becomes one typed text item, array content is mapped item-wise, other
content is passed through. -/
def transformMessageV1 (msg : RawMessage) : String × V1Content :=
  (msg.role,
    match msg.content with
    | .rcstr s => .varr [.vtext (if msg.role = "assistant" then "output_text" else "input_text") s]
    | .rcarr items => .varr (items.map (transformItemV1 msg.role))
    | .rcother p => .vraw p)

/-- `transformMessages` (`responses-api.transformer.ts` lines 44–82). -/
def transformMessagesV1 (msgs : List RawMessage) : List (String × V1Content) :=
  msgs.map transformMessageV1

/-- The items of an encoded content value (empty for passed-through
non-array content). -/
def itemsOfV1 : V1Content → List V1Item
  | .varr items => items
  | .vraw _ => []

/-! ## Decoded Responses API payloads
(`responses-api-v2.transformer.ts`, first revision)

The decoder inspects: `response.status`, `response.model`,
`response.output` (a list of items of type `message` / `function_call` /
other), a message item's `status` and `content` (items of type
`output_text` / `tool_use` / other).  Exactly those fields are modelled. -/

/-- One item of a `message` output's `content` array. -/
inductive MsgContentItem where
  | outputText (text : String)
  | toolUse (id name input : String)
  | otherContent (ty : String)
deriving DecidableEq

/-- One item of `response.output`. -/
inductive OutputItem where
  | message (status : String) (content : List MsgContentItem)
  | functionCall (callId name args status : String)
  | otherOutput (ty : String)
deriving DecidableEq

/-- The decoded upstream response (the fields the decoder reads). -/
structure ApiResponse where
  id : String
  model : String
  status : String
  output : List OutputItem
deriving DecidableEq

/-- A `function_call` output item (`FunctionCallOutput`). -/
structure FCall where
  callId : String
  name : String
  args : String
  status : String
deriving DecidableEq

/-- `response.output?.find(o => o.type === 'message')`. -/
def firstMessage : List OutputItem → Option (String × List MsgContentItem)
  | [] => none
  | .message st c :: _ => some (st, c)
  | _ :: rest => firstMessage rest

/-- `response.output?.filter(o => o.type === 'function_call')`. -/
def functionCallsOf : List OutputItem → List FCall :=
  List.filterMap fun o =>
    match o with
    | .functionCall c n a s => some ⟨c, n, a, s⟩
    | _ => none

/-- `messageOutput?.content?.find(c => c.type === 'output_text')`,
projected to its `text`. -/
def firstOutputText : List MsgContentItem → Option String
  | [] => none
  | .outputText t :: _ => some t
  | _ :: rest => firstOutputText rest

/-- The text the decoder stores in `choices[0].message.content`: the first
`output_text` item of the first `message` output, if any. -/
def messageTextOf (resp : ApiResponse) : Option String :=
  match firstMessage resp.output with
  | some (_, c) => firstOutputText c
  | none => none

/-- JS `String.prototype.trim`. -/
def trimStr (s : String) : String :=
  ⟨((s.data.dropWhile Char.isWhitespace).reverse.dropWhile Char.isWhitespace).reverse⟩

/-- The continuation phrases of `shouldContinue`
(`responses-api-v2.transformer.ts` lines 534–539). -/
def continuationPhrases : List String :=
  ["i\x27ll", "i will", "let me", "next", "continuing", "moving",
   "proceed", "going to", "working on", "starting", "now",
   "step", "task", "todo", "plan", "then", "after",
   "once", "when", "should", "need to", "have to", "must"]

/-- The regex test `/\d+[.)]/` : some digit immediately followed by `.`
or `)`. -/
def digitThenBracket : List Char → Bool
  | a :: b :: rest => (a.isDigit && (b = Char.ofNat 46 || b = Char.ofNat 41)) || digitThenBracket (b :: rest)
  | _ => false

/-- Splitting a sequence at a separator, JS
`String.prototype.split` style: `n` separators yield `n + 1` segments. -/
def splitSegs {α : Type} [DecidableEq α] (nl : α) : List α → List (List α)
  | [] => [[]]
  | b :: rest =>
    if b = nl then [] :: splitSegs nl rest
    else
      match splitSegs nl rest with
      | [] => [[b]]
      | seg :: segs => (b :: seg) :: segs

/-- The regex test `/^[-*]/m` : some line starts with `-` or `*`. -/
def startsWithDashStar (content : String) : Bool :=
  (splitSegs (Char.ofNat 10) content.data).any fun l =>
    match l with
    | c :: _ => c = Char.ofNat 45 || c = Char.ofNat 42
    | [] => false

/-- `content.trim().endsWith(',')`. -/
def endsWithComma (content : String) : Bool :=
  match (trimStr content).data.getLast? with
  | some c => c = Char.ofNat 44
  | none => false

/-- `continuationPhrases.some(phrase => content.includes(phrase))`. -/
def hasContinuationPhrase (content : String) : Bool :=
  continuationPhrases.any fun p => containsSub content p

/-- `shouldContinue` (`responses-api-v2.transformer.ts` lines 512–560).
`hasContent` is the caller-supplied flag (unused by the body, as in the
source). -/
def shouldContinueV2 (currentModel : String) (resp : ApiResponse) (hasContent : Bool) : Bool :=
  if resp.status = "incomplete" then true
  else if 0 < (functionCallsOf resp.output).length then true
  else
    let content :=
      match messageTextOf resp with
      | some t => lowerStr t
      | none => ""
    if content ≠ "" then
      hasContinuationPhrase content ||
        (digitThenBracket content.data || startsWithDashStar content) ||
        endsWithComma content || containsSub content "..." ||
        isReasoningModel (if resp.model = "" then currentModel else resp.model) ||
        decide (100 < content.data.length)
    else true

/-- The continuation-policy options
(`continuousExecution` / `alwaysContinueWithTools`). -/
structure ContinuationOptions where
  alwaysContinueWithTools : Bool
  continuousExecution : Bool
deriving DecidableEq

/-- The constructor defaults: both continuation flags enabled. -/
def defaultContinuationOptions : ContinuationOptions := ⟨true, true⟩

/-- The finish-reason decision of `transformResponseToOpenAI`
(`responses-api-v2.transformer.ts` lines 591–724, first revision): the
initial `'stop'`, the decision tree inside the
`functionCalls.length > 0` block (lines 660–689), and the final
`status === 'incomplete'` override (lines 703–709). -/
def nonStreamFinishReason (opts : ContinuationOptions) (currentModel : String)
    (resp : ApiResponse) : String :=
  let fcs := functionCallsOf resp.output
  let content := messageTextOf resp
  let hasContent :=
    match content with
    | some s => decide (0 < (trimStr s).data.length)
    | none => false
  let inner :=
    if 0 < fcs.length then
      if resp.status = "incomplete" then "length"
      else if opts.alwaysContinueWithTools && decide (0 < fcs.length) then "stop"
      else if hasContent && decide (0 < fcs.length) then "stop"
      else if decide (0 < fcs.length) && !hasContent then
        if opts.continuousExecution || shouldContinueV2 currentModel resp hasContent then "stop"
        else "tool_calls"
      else "stop"
    else "stop"
  if resp.status = "incomplete" then "length" else inner

/-- The finish-reason decision taken by `processStreamEvent` on
`response.completed` / `response.incomplete`
(`responses-api-v2.transformer.ts` lines 935–993, first revision).
`eventIncomplete` is whether the terminal event is `response.incomplete`;
`hadToolCalls` / `hasContent` are the stream-state flags. -/
def streamFinalFinishReason (opts : ContinuationOptions) (currentModel : String)
    (eventIncomplete hadToolCalls hasContent : Bool) : String :=
  if eventIncomplete then "length"
  else if hadToolCalls && hasContent then "stop"
  else if hadToolCalls && !hasContent then
    if opts.alwaysContinueWithTools || opts.continuousExecution then "stop"
    else if isReasoningModel currentModel then "stop"
    else "tool_calls"
  else "stop"

/-- The finish reason of the legacy decoder `transformToOpenAIFormat`
(`responses-api.transformer.ts` lines 387–540): tool-calls-only responses
get `'tool_calls'` (line 424); responses with neither message nor function
calls get `'length'` on `status === 'incomplete'` and `'stop'` otherwise
(line 453); responses with a message start from the message item's own
status (line 472) and are overridden to `'tool_calls'` when separate
function-call outputs exist (lines 502–522). -/
def v1FinishReason (resp : ApiResponse) : String :=
  let msg := firstMessage resp.output
  let fcs := functionCallsOf resp.output
  match msg with
  | none =>
    if 0 < fcs.length then "tool_calls"
    else if resp.status = "incomplete" then "length"
    else "stop"
  | some (status, _) =>
    let base := if status = "completed" then "stop" else "length"
    if 0 < fcs.length then "tool_calls" else base

/-! ## Streaming reassembly
(`handleStreamingResponse` in `openai-unified.transformer.ts` lines
294–368, `responses-api-v2.transformer.ts` lines 743–792 and
`responses-api.transformer.ts` lines 542–681 — all three share the same
buffering loop)

The loop is, per network chunk:
`buffer += chunk; lines = buffer.split("\n"); buffer = lines.pop(); …`
and each complete line is then processed independently.  Chunks are
modelled as byte lists (`TextDecoder` with `stream: true` is transparent
for this purpose: it buffers partial UTF-8 sequences itself, and the byte
`0x0A` never occurs inside a multi-byte UTF-8 sequence, so splitting on
`"\n"` after decoding extracts the same lines as splitting on byte `10`
before decoding). -/

/-- `s.split(nl)` followed by `pop()` in one pass: the complete (closed)
segments and the trailing remainder.  Proved equal to
`((splitSegs nl s).dropLast, (splitSegs nl s).getLastD [])` below. -/
def lineSplit {α : Type} [DecidableEq α] (nl : α) : List α → List (List α) × List α
  | [] => ([], [])
  | b :: rest =>
    if b = nl then ([] :: (lineSplit nl rest).1, (lineSplit nl rest).2)
    else
      match lineSplit nl rest with
      | ([], r) => ([], b :: r)
      | (l :: ls, r) => ((b :: l) :: ls, r)

/-- One iteration of the buffering loop: append the chunk to the buffer,
emit every complete line, keep the trailing remainder.  The state is
`(emitted lines so far, buffer)`. -/
def feedChunk (st : List (List Nat) × List Nat) (c : List Nat) : List (List Nat) × List Nat :=
  let parts := splitSegs 10 (st.2 ++ c)
  (st.1 ++ parts.dropLast, parts.getLastD [])

/-- Running the buffering loop over a whole chunk sequence, starting from
the empty buffer.  Returns the complete lines emitted (in order) and the
final buffer contents. -/
def runChunks (cs : List (List Nat)) : List (List Nat) × List Nat :=
  cs.foldl feedChunk ([], [])

/-! ## Per-line frame processing (`C5`)

`JSON.parse` is a JavaScript runtime primitive; it is passed in as an
explicit `parse` parameter (returning `none` exactly when `JSON.parse`
throws).  The event-to-chunk transformation applied after a successful
parse is likewise a parameter: the properties proved here concern only the
paths on which it is or is not reached. -/

/-- `List.isPrefixOf` on strings: JS `line.startsWith(p)`. -/
def isPrefixStr (p s : String) : Bool :=
  List.isPrefixOf p.data s.data

/-- JS `line.slice(n)`. -/
def dropStr (n : Nat) (s : String) : String :=
  ⟨s.data.drop n⟩

/-- The per-line processing of the v2 streaming handler
(`responses-api-v2.transformer.ts` lines 758–777, identical in both
revisions): blank lines are skipped, `data: [DONE]` is forwarded, a
parseable `data:` payload is transformed (and forwarded only when the
transform yields a chunk), and a line whose payload fails to parse is
dropped — the `catch` block only logs. -/
def processLineV2 {ε : Type} (parse : String → Option ε) (handle : ε → Option String)
    (line : String) : List String :=
  if trimStr line = "" || line = "data: [DONE]" then
    if line = "data: [DONE]" then ["data: [DONE]\n\n"] else []
  else if isPrefixStr "data: " line then
    match parse (dropStr 6 line) with
    | some ev =>
      match handle ev with
      | some out => ["data: " ++ out ++ "\n\n"]
      | none => []
    | none => []
  else []

/-- The per-line processing of the unified streaming handler
(`openai-unified.transformer.ts` lines 323–353).  `transform` composes
`JSON.parse`, the in-place refusal/parsed fix-ups and `JSON.stringify`;
it returns `none` exactly when `JSON.parse` throws, in which case the
original line is forwarded unchanged. -/
def processLineUnified (transform : String → Option String) (line : String) : List String :=
  if trimStr line = "" || line = "data: [DONE]" then [line ++ "\n"]
  else if isPrefixStr "data: " line then
    match transform (dropStr 6 line) with
    | some out => ["data: " ++ out ++ "\n"]
    | none => [line ++ "\n"]
  else [line ++ "\n"]

/-- The per-line processing of the legacy streaming handler
(`responses-api.transformer.ts` lines 574–656): `transform` maps a parsed
payload to the chunk lines it emits; on a parse failure the `catch` block
only logs (despite its own comment claiming pass-through), and non-`data:`
lines other than `data: [DONE]` are dropped. -/
def processLineRespV1 (transform : String → Option (List String)) (line : String) : List String :=
  if trimStr line = "" then []
  else if isPrefixStr "data: " line && !(trimStr line = "data: [DONE]") then
    match transform (dropStr 6 line) with
    | some outs => outs
    | none => []
  else if line = "data: [DONE]" then [line ++ "\n\n"]
  else []

/-! ## MaxTokenTransformer (`maxtoken.transformer.ts` lines 13–25)

`transformRequestIn` mutates the incoming request object in place
(`request.max_tokens = Math.min(…)`) and returns that same object.  The
mutation is made explicit by returning a pair
`(returned request, caller's request object after the call)` — in the
source both are the same object, so the two components are always equal. -/

/-- The token-limit fields of a request as read and written by
`MaxTokenTransformer` (`none` = field absent; JS treats `0` as falsy). -/
structure MaxTokenRequest where
  maxTokens : Option Nat
  maxCompletionTokens : Option Nat
deriving DecidableEq

/-- `MaxTokenTransformer.transformRequestIn`.  `limit` is the configured
`this.max_tokens` (`options.max_tokens || options.maxTokens`, `none` when
unset).  Returns `(result, caller's request after the call)`. -/
def maxTokenTransformRequestIn (limit : Option Nat) (request : MaxTokenRequest) :
    MaxTokenRequest × MaxTokenRequest :=
  match limit with
  | some l =>
    if l = 0 then (request, request)
    else
      let r1 :=
        match request.maxTokens with
        | some n => if n = 0 then request else MaxTokenRequest.mk (some (min n l)) request.maxCompletionTokens
        | none => request
      let r2 :=
        match r1.maxCompletionTokens with
        | some n => if n = 0 then r1 else MaxTokenRequest.mk r1.maxTokens (some (min n l))
        | none => r1
      (r2, r2)
  | none => (request, request)

/-! ## Refusal handling
(`openai-unified.transformer.ts` lines 262–292 and 329–353;
`openai-response-format.transformer.ts` lines 134–168 and 205–236)

The decoders read `choices[0].message` (respectively
`choices[0].delta`): its `content`, `refusal` and `parsed` fields.
`parsed` is an object on the wire; it is modelled by its
`JSON.stringify` serialisation, which is all the code produces from
it. -/

/-- `choices[0].message` / `choices[0].delta` as read by the refusal
handlers (`none` = field absent or `null`). -/
structure ChatMessage where
  content : Option String
  refusal : Option String
  parsed : Option String
deriving DecidableEq

/-- JS falsiness of the `content` field: absent, `null` or `""`. -/
def contentFalsy : Option String → Bool
  | some c => decide (c = "")
  | none => true

/-- The non-streaming refusal/parsed fix-up of the unified transformer
(`openai-unified.transformer.ts` lines 267–281): a (truthy) `refusal`
becomes `content = "[REFUSAL] " + refusal`; then a present `parsed`
fills an empty `content` with its serialisation.  The `refusal` field
itself is left in place. -/
def unifiedHandleMessage (m : ChatMessage) : ChatMessage :=
  let m1 :=
    match m.refusal with
    | some r => if r = "" then m else ChatMessage.mk (some ("[REFUSAL] " ++ r)) m.refusal m.parsed
    | none => m
  match m1.parsed with
  | some p => if contentFalsy m1.content then ChatMessage.mk (some p) m1.refusal m1.parsed else m1
  | none => m1

/-- The streaming refusal/parsed fix-up of the unified transformer
(`openai-unified.transformer.ts` lines 334–344): the delta's `refusal`
becomes `content = "[REFUSAL] " + refusal` and the `refusal` field is
deleted. -/
def unifiedHandleDelta (d : ChatMessage) : ChatMessage :=
  let d1 :=
    match d.refusal with
    | some r => if r = "" then d else ChatMessage.mk (some ("[REFUSAL] " ++ r)) none d.parsed
    | none => d
  match d1.parsed with
  | some p => if contentFalsy d1.content then ChatMessage.mk (some p) d1.refusal d1.parsed else d1
  | none => d1

/-- The non-streaming refusal/parsed fix-up of the response-format
transformer (`openai-response-format.transformer.ts` lines 139–157) —
the same logic as the unified transformer, duplicated in the source. -/
def rfHandleMessage (m : ChatMessage) : ChatMessage :=
  let m1 :=
    match m.refusal with
    | some r => if r = "" then m else ChatMessage.mk (some ("[REFUSAL] " ++ r)) m.refusal m.parsed
    | none => m
  match m1.parsed with
  | some p => if contentFalsy m1.content then ChatMessage.mk (some p) m1.refusal m1.parsed else m1
  | none => m1

/-- The streaming refusal/parsed fix-up of the response-format transformer
(`openai-response-format.transformer.ts` lines 210–229): converts the
refusal to content, deletes the `refusal` field. -/
def rfHandleDelta (d : ChatMessage) : ChatMessage :=
  let d1 :=
    match d.refusal with
    | some r => if r = "" then d else ChatMessage.mk (some ("[REFUSAL] " ++ r)) none d.parsed
    | none => d
  match d1.parsed with
  | some p => if contentFalsy d1.content then ChatMessage.mk (some p) d1.refusal d1.parsed else d1
  | none => d1

/-! ## The sanitising v2 message encoder
(`responses-api-v2.transformer.ts`, second revision: `transformMessages`
lines 1287–1480, `transformContentArray` lines 1482–1619,
`createToolResult` lines 1621–1662)

The incoming messages are untyped JavaScript values; the inductive types
below keep exactly the distinctions the code inspects.  `JText` is the
value found in a `.text`-like field: `null`, `undefined`, a string, or any
other value carried with its `toString()` representation and its JS
truthiness.  `JSON.stringify` of an object input is a runtime primitive;
objects that the code stringifies are modelled by their serialised string
(the properties proved do not depend on its exact contents). -/

/-- A JavaScript value in a text-like position. -/
inductive JText where
  | jnull
  | jundef
  | jstr (s : String)
  | jother (repr : String) (truthy : Bool)
deriving DecidableEq

/-- `String(v)`. -/
def jsToString : JText → String
  | .jnull => "null"
  | .jundef => "undefined"
  | .jstr s => s
  | .jother r _ => r

/-- JS truthiness of the value. -/
def jsTruthy : JText → Bool
  | .jnull => false
  | .jundef => false
  | .jstr s => decide (s ≠ "")
  | .jother _ t => t

/-- `v?.toString() || fallback`. -/
def jsToStringOr (v : JText) (fallback : String) : String :=
  match v with
  | .jnull => fallback
  | .jundef => fallback
  | .jstr s => if s = "" then fallback else s
  | .jother r _ => if r = "" then fallback else r

/-- A content-array item as inspected by `transformContentArray`:
a `null`/`undefined` entry, a bare string, a `text` item, an `image_url`
item (`url` = `item.image_url?.url`), a `tool_use` item (`input` is its
`JSON.stringify`, `none` when the `input` field is falsy), a `tool_result`
item, or an item of unknown type (`text` = its `.text` field,
`selfRepr` = its `toString()`). -/
inductive CItem where
  | cnull
  | cstr (s : String)
  | ctext (text : JText)
  | cimage (url : JText)
  | ctoolUse (name id : JText) (input : Option String)
  | ctoolResult (content : JText) (toolUseId toolCallId : JText)
  | cunknown (text : JText) (selfRepr : String)
deriving DecidableEq

/-- The `content` field of an incoming message: a string, an array,
`null`, `undefined`, or any other value (carried as its `toString()`
representation). -/
inductive MsgContent where
  | mstr (s : String)
  | marr (items : List CItem)
  | mnull
  | mundef
  | mother (repr : String)
deriving DecidableEq

/-- One entry of `msg.tool_calls`: `funcName` = `tc.function?.name`,
`topName` = `tc.name`. -/
structure TCall where
  funcName : JText
  topName : JText
deriving DecidableEq

/-- An incoming message as inspected by the v2 `transformMessages`
(`toolCalls = none` when the `tool_calls` field is absent — note that in
JS an *empty* `tool_calls` array is truthy and still selects the
assistant-with-tools branch). -/
structure V2InMsg where
  role : String
  content : MsgContent
  toolCalls : Option (List TCall)
  toolCallId : JText
  toolUseId : JText
deriving DecidableEq

/-- An outgoing `ResponsesApiContent` item.  `text` is kept as a raw
JS value (`JText`) so that "every emitted text is a string" is a provable
property rather than one baked into the type; image items start with
`text = undefined`, exactly as on the wire. -/
structure V2OutItem where
  ty : String
  text : JText
  imageUrl : Option String
deriving DecidableEq

/-- An outgoing `ResponsesApiMessage`. -/
structure V2OutMsg where
  role : String
  content : List V2OutItem
deriving DecidableEq

/-- Stand-in for `JSON.stringify` of a non-string message content value
(`createToolResult`, lines 1630–1638).  The claims proved here do not
depend on its output. -/
def jsonStringifyMsgContent : MsgContent → String
  | .marr _ => "[array content]"
  | .mother r => r
  | _ => "null"

/-- `createToolResult` (lines 1621–1662): formats a `tool`-role message as
an `input_text` item, with full null-guarding. -/
def createToolResult (msg : V2InMsg) : V2OutItem :=
  let content :=
    match msg.content with
    | .mnull => "[No output]"
    | .mundef => "[No output]"
    | .mstr s => s
    | .marr items => jsonStringifyMsgContent (.marr items)
    | .mother r => jsonStringifyMsgContent (.mother r)
  let toolId :=
    if jsTruthy msg.toolCallId then jsToString msg.toolCallId
    else if jsTruthy msg.toolUseId then jsToString msg.toolUseId
    else "unknown"
  let toolResultText := "[Tool Result " ++ toolId ++ "]\n" ++ content
  let text0 := if toolResultText = "" then "[Empty tool result]" else toolResultText
  let text1 := if text0 = "" then "[Fixed invalid tool result text]" else text0
  ⟨"input_text", .jstr text1, none⟩

/-- The per-item mapping of `transformContentArray` (lines 1495–1576).
`ct` is `getContentType role`; `none` = the item is skipped
(`null`/`undefined` entries). -/
def transformContentItem (role ct : String) (item : CItem) : Option V2OutItem :=
  match item with
  | .cnull => none
  | .cstr s => some ⟨ct, .jstr s, none⟩
  | .ctext t =>
    let text :=
      match t with
      | .jnull => "[Fixed null text property]"
      | .jundef => "[Fixed null text property]"
      | v => jsToString v
    some ⟨ct, .jstr text, none⟩
  | .cimage url =>
    let imageType := if role = "assistant" then "output_image" else "input_image"
    some ⟨imageType, .jundef, some (if jsTruthy url then jsToString url else "[Invalid image URL]")⟩
  | .ctoolUse name id input =>
    let toolName := if jsTruthy name then jsToString name else "unknown"
    let toolId := if jsTruthy id then jsToString id else "unknown"
    let toolInput := match input with | some s => s | none => "null"
    let toolUseText := "[Tool call: " ++ toolName ++ " (" ++ toolId ++ ")]\nInput: " ++ toolInput
    some ⟨if role = "assistant" then "output_text" else "input_text", .jstr toolUseText, none⟩
  | .ctoolResult content tuId tcId =>
    let contentText :=
      match content with
      | .jnull => "[No result content]"
      | .jundef => "[No result content]"
      | v => jsToString v
    let toolId :=
      if jsTruthy tuId then jsToString tuId
      else if jsTruthy tcId then jsToString tcId
      else "unknown"
    some ⟨"input_text", .jstr ("[Tool Result for " ++ toolId ++ "]\n" ++ contentText), none⟩
  | .cunknown t selfRepr =>
    let fallbackText := jsToStringOr t (if selfRepr = "" then "[Unknown content type]" else selfRepr)
    some ⟨ct, .jstr fallbackText, none⟩

/-- The final per-item validation of `transformContentArray`
(lines 1588–1616): on `input_text`/`output_text` items a
`null`/`undefined` text is replaced and a non-string text is
`toString()`-ed. -/
def validateContentItem (item : V2OutItem) : V2OutItem :=
  if item.ty = "input_text" || item.ty = "output_text" then
    match item.text with
    | .jnull => ⟨item.ty, .jstr "[Fixed null text in processed item]", item.imageUrl⟩
    | .jundef => ⟨item.ty, .jstr "[Fixed null text in processed item]", item.imageUrl⟩
    | .jstr _ => item
    | .jother r _ => ⟨item.ty, .jstr (if r = "" then "[Fixed non-string text]" else r), item.imageUrl⟩
  else item

/-- `transformContentArray` (lines 1482–1619).  The guard for a
non-array `content` argument (lines 1487–1493) is unreachable here
because the caller only passes arrays — the typed model reflects that. -/
def transformContentArray (role : String) (content : List CItem) : List V2OutItem :=
  let ct := getContentType role
  let result := content.filterMap (transformContentItem role ct)
  let result2 := if result.isEmpty then [⟨ct, .jstr "[Fixed empty content array]", none⟩] else result
  result2.map validateContentItem

/-- The text extracted from an assistant-with-tool-calls message
(lines 1318–1329): a string content is taken as-is; in an array content
the string items and the `text` items with truthy text are joined with
single spaces. -/
def assistantTextFromContent : MsgContent → String
  | .mstr s => s
  | .marr items =>
    let textItems := items.filter fun it =>
      match it with
      | .cstr _ => true
      | .ctext t => jsTruthy t
      | _ => false
    String.intercalate " " (textItems.map fun it =>
      match it with
      | .cstr s => s
      | .ctext t => jsToString t
      | _ => "")
  | _ => ""

/-- `tc.function?.name || tc.name || 'unknown'` (lines 1339–1341). -/
def toolNameOf (tc : TCall) : String :=
  if jsTruthy tc.funcName then jsToString tc.funcName
  else if jsTruthy tc.topName then jsToString tc.topName
  else "unknown"

/-- The `forEach` validation of the assistant branch (lines 1364–1371):
an empty or non-string text is replaced by its `toString()` or
`'[Empty content]'`. -/
def fixAssistantItem (item : V2OutItem) : V2OutItem :=
  if !(jsTruthy item.text) || !(match item.text with | .jstr _ => true | _ => false) then
    ⟨item.ty, .jstr (jsToStringOr item.text "[Empty content]"), item.imageUrl⟩
  else item

/-- The assistant-with-tool-calls branch of `transformMessages`
(lines 1311–1377). -/
def assistantWithToolsContent (msg : V2InMsg) (tcs : List TCall) : List V2OutItem :=
  let textContent := assistantTextFromContent msg.content
  let toolNames := tcs.map toolNameOf
  let toolCallsText := "[Executing " ++ toString toolNames.length ++ " tool" ++
    (if 1 < toolNames.length then "s" else "") ++ ": " ++
    String.intercalate ", " toolNames ++ "]"
  let content :=
    if textContent ≠ "" ∧ 0 < (trimStr textContent).data.length then
      [(⟨"output_text", .jstr (textContent ++ "\n" ++ toolCallsText), none⟩ : V2OutItem)]
    else
      [(⟨"output_text", .jstr toolCallsText, none⟩ : V2OutItem)]
  let content2 :=
    if content.isEmpty then
      [(⟨"output_text", .jstr (if toolCallsText = "" then "[Tool execution]" else toolCallsText), none⟩ : V2OutItem)]
    else content
  content2.map fixAssistantItem

/-- The main loop of the v2 `transformMessages` (lines 1290–1425),
carrying the accumulated output messages (the `transformed` array). -/
def transformMessagesLoop : List V2InMsg → List V2OutMsg → List V2OutMsg
  | [], acc => acc
  | msg :: rest, acc =>
    if msg.role = "tool" then
      let tr := createToolResult msg
      let acc2 :=
        match acc.getLast? with
        | some last =>
          if last.role = "user" then acc.dropLast ++ [⟨last.role, last.content ++ [tr]⟩]
          else acc ++ [⟨"user", [tr]⟩]
        | none => acc ++ [⟨"user", [tr]⟩]
      transformMessagesLoop rest acc2
    else if msg.role = "assistant" ∧ msg.toolCalls.isSome then
      transformMessagesLoop rest
        (acc ++ [⟨"assistant", assistantWithToolsContent msg (msg.toolCalls.getD [])⟩])
    else
      let ct := getContentType msg.role
      let items : List V2OutItem :=
        match msg.content with
        | .mstr s => [⟨ct, .jstr s, none⟩]
        | .marr arr => transformContentArray msg.role arr
        | .mnull => if msg.role = "user" then [⟨ct, .jstr "", none⟩] else [⟨ct, .jstr "[Continuing...]", none⟩]
        | .mundef => if msg.role = "user" then [⟨ct, .jstr "", none⟩] else [⟨ct, .jstr "[Continuing...]", none⟩]
        | .mother r => [⟨ct, .jstr (if r = "" then "[Invalid content]" else r), none⟩]
      if items.isEmpty then transformMessagesLoop rest acc
      else transformMessagesLoop rest (acc ++ [⟨msg.role, items⟩])

/-- The per-item part of the final sanitisation pass (lines 1450–1472):
`null`/`undefined` text becomes `'[Fixed null text]'`, non-string text is
`toString()`-ed. -/
def sanitizeItem : V2OutItem → V2OutItem
  | ⟨ty, .jnull, url⟩ => ⟨ty, .jstr "[Fixed null text]", url⟩
  | ⟨ty, .jundef, url⟩ => ⟨ty, .jstr "[Fixed null text]", url⟩
  | ⟨ty, .jstr s, url⟩ => ⟨ty, .jstr s, url⟩
  | ⟨ty, .jother r _, url⟩ => ⟨ty, .jstr (if r = "" then "[Fixed invalid text]" else r), url⟩

/-- The per-message sanitisation (lines 1428–1477): an empty content
array is replaced by a role-typed placeholder, otherwise every item is
sanitised.  (The `null`-content branches of the source are unreachable in
the typed model: the loop always builds arrays, as the TS type
`ResponsesApiContent[]` also states.) -/
def sanitizeMsg (m : V2OutMsg) : V2OutMsg :=
  let ct := if m.role = "assistant" then "output_text" else "input_text"
  if m.content.isEmpty then ⟨m.role, [⟨ct, .jstr "[Fixed empty content]", none⟩]⟩
  else ⟨m.role, m.content.map sanitizeItem⟩

/-- The v2 `transformMessages` (second revision, lines 1287–1480): the
main loop followed by the comprehensive sanitisation pass. -/
def transformMessagesV2 (msgs : List V2InMsg) : List V2OutMsg :=
  (transformMessagesLoop msgs []).map sanitizeMsg

/-! # Part II: Lemmas and verification theorems -/

theorem splitSegs_ne_nil {α : Type} [DecidableEq α] (nl : α) (s : List α) :
    splitSegs nl s ≠ [] := by
  cases s with
  | nil => simp [splitSegs]
  | cons b rest =>
    simp only [splitSegs]
    split_ifs
    · simp
    · cases h : splitSegs nl rest <;> simp

theorem lineSplit_eq (nl : α) [DecidableEq α] (s : List α) :
    lineSplit nl s = ((splitSegs nl s).dropLast, (splitSegs nl s).getLastD []) := by
  induction s with
  | nil => rfl
  | cons b rest ih =>
    obtain ⟨q, Q, hqQ⟩ : ∃ q Q, splitSegs nl rest = q :: Q := by
      cases h : splitSegs nl rest with
      | nil => exact absurd h (splitSegs_ne_nil nl rest)
      | cons q Q => exact ⟨q, Q, rfl⟩
    simp only [lineSplit, splitSegs, ih, hqQ]
    split_ifs with hb
    · cases Q with
      | nil => simp
      | cons q2 Q2 => simp
    · cases Q with
      | nil => simp
      | cons q2 Q2 => simp


theorem lineSplit_rem_no_nl (nl : α) [DecidableEq α] (s : List α) :
    nl ∉ (lineSplit nl s).2 := by
  induction s with
  | nil => simp [lineSplit]
  | cons b rest ih =>
    simp only [lineSplit]
    split_ifs with hb
    · exact ih
    · cases h : lineSplit nl rest with
      | mk ls r =>
        rw [h] at ih
        cases ls with
        | nil =>
          simp only [List.mem_cons, not_or]
          exact ⟨fun hc => hb hc.symm, ih⟩
        | cons l ls2 => simpa using ih

theorem lineSplit_of_no_nl (nl : α) [DecidableEq α] (s : List α) (h : nl ∉ s) :
    lineSplit nl s = ([], s) := by
  induction s with
  | nil => rfl
  | cons b rest ih =>
    simp only [List.mem_cons, not_or] at h
    have hb : ¬ b = nl := fun hb => h.1 hb.symm
    simp only [lineSplit, if_neg hb, ih h.2]

theorem lineSplit_append (nl : α) [DecidableEq α] (a b : List α) :
    lineSplit nl (a ++ b) =
      ((lineSplit nl a).1 ++ (lineSplit nl ((lineSplit nl a).2 ++ b)).1,
       (lineSplit nl ((lineSplit nl a).2 ++ b)).2) := by
  induction a with
  | nil => simp [lineSplit]
  | cons x a2 ih =>
    cases h1 : lineSplit nl a2 with
    | mk ls1 r1 =>
      rw [h1] at ih
      simp only at ih
      by_cases hx : x = nl
      · simp only [List.cons_append, lineSplit, List.append_eq, if_pos hx, h1]
        rw [ih]
      · cases ls1 with
        | nil =>
          cases h2 : lineSplit nl (r1 ++ b) with
          | mk ls2 r2 =>
            rw [h2] at ih
            simp only [List.nil_append] at ih
            simp only [List.cons_append, lineSplit, List.append_eq, if_neg hx, h1]
            rw [ih, h2]
            cases ls2 <;> simp
        | cons l1 ls2 =>
          simp only [List.cons_append, lineSplit, List.append_eq, if_neg hx, h1]
          rw [ih]
          simp


theorem feedChunk_eq (st : List (List Nat) × List Nat) (c : List Nat) :
    feedChunk st c = (st.1 ++ (lineSplit 10 (st.2 ++ c)).1, (lineSplit 10 (st.2 ++ c)).2) := by
  simp [feedChunk, lineSplit_eq]

theorem foldl_feedChunk (cs : List (List Nat)) :
    ∀ (acc : List (List Nat)) (buf : List Nat), (10 : Nat) ∉ buf →
      cs.foldl feedChunk (acc, buf) =
        (acc ++ (lineSplit 10 (buf ++ cs.flatten)).1, (lineSplit 10 (buf ++ cs.flatten)).2) := by
  induction cs with
  | nil =>
    intro acc buf h
    simp [lineSplit_of_no_nl 10 buf h]
  | cons c cs ih =>
    intro acc buf h
    simp only [List.foldl_cons, List.flatten_cons, feedChunk_eq]
    rw [ih _ _ (lineSplit_rem_no_nl 10 (buf ++ c))]
    rw [show buf ++ (c ++ cs.flatten) = (buf ++ c) ++ cs.flatten from (List.append_assoc buf c cs.flatten).symm]
    rw [lineSplit_append 10 (buf ++ c) cs.flatten]
    simp [List.append_assoc]

theorem runChunks_eq (cs : List (List Nat)) :
    runChunks cs = lineSplit 10 cs.flatten := by
  have h := foldl_feedChunk cs [] [] (by simp)
  simp only [List.nil_append] at h
  simpa [runChunks] using h

/-- Claim C4: chunk-split invariance of SSE reassembly.  For every two ways
of splitting the same byte stream into chunks (including splits mid-line,
mid-frame and mid-UTF-8-codepoint), the buffering loop of
`handleStreamingResponse` extracts the identical ordered sequence of
complete lines and the identical trailing remainder — hence, for any
per-line frame emission `frame`, the identical ordered frame sequence,
losing and duplicating no byte. -/
theorem claim_C4_chunk_split_invariance {β : Type} (frame : List Nat → List β) (cs1 cs2 : List (List Nat))
    (h : cs1.flatten = cs2.flatten) :
    runChunks cs1 = runChunks cs2 ∧
      (runChunks cs1).1.map frame = (runChunks cs2).1.map frame := by
  have h1 : runChunks cs1 = runChunks cs2 := by rw [runChunks_eq, runChunks_eq, h]
  exact ⟨h1, by rw [h1]⟩

/-- Witness for C4: the bytes `"da" ++ "ta:\n"` chunked two different
ways (one split mid-line plus an empty chunk) reassemble identically. -/
theorem claim_C4_chunk_split_invariance_witness :
    [[100, 97], [116, 97, 58, 10]].flatten = [[100], [97, 116, 97, 58], [], [10]].flatten ∧
      runChunks [[100, 97], [116, 97, 58, 10]] = runChunks [[100], [97, 116, 97, 58], [], [10]] :=
  ⟨by decide, (claim_C4_chunk_split_invariance (fun l => [l]) [[100, 97], [116, 97, 58, 10]]
      [[100], [97, 116, 97, 58], [], [10]] (by decide)).1⟩


/-- Claim C1: role-based content-type rule.  `getContentType` maps
`assistant` to `output_text` and every other role (user, system, tool, …)
to `input_text`; and in the v1 encoder `transformMessages`, every emitted
text item of every message is tagged `output_text` inside an assistant
message and `input_text` otherwise — the tagging is never swapped. -/
theorem claim_C1_role_content_type :
    (getContentType "assistant" = "output_text" ∧
      ∀ role : String, role ≠ "assistant" → getContentType role = "input_text") ∧
    ∀ (msgs : List RawMessage), ∀ m ∈ transformMessagesV1 msgs,
      ∀ (ty t : String), V1Item.vtext ty t ∈ itemsOfV1 m.2 →
        ty = if m.1 = "assistant" then "output_text" else "input_text" := by
  refine ⟨⟨rfl, ?_⟩, ?_⟩
  · intro role h
    unfold getContentType
    split
    · exact absurd rfl h
    case _ => rfl
  · intro msgs m hm ty t hit
    rcases List.mem_map.mp hm with ⟨msg, _, rfl⟩
    rcases msg with ⟨role, content⟩
    cases content with
    | rcstr s =>
      simp only [transformMessageV1, itemsOfV1, List.mem_singleton, V1Item.vtext.injEq] at hit
      simp only [transformMessageV1]
      exact hit.1
    | rcarr items =>
      simp only [transformMessageV1, itemsOfV1, List.mem_map] at hit
      rcases hit with ⟨item, _, hmap⟩
      cases item <;> simp [transformItemV1, V1Item.vtext.injEq] at hmap <;>
        simp [transformMessageV1, ← hmap.1]
    | rcother p =>
      simp [transformMessageV1, itemsOfV1] at hit

/-- Witness for C1 at concrete inputs: the `tool` role and a `user`
message containing one text block. -/
theorem claim_C1_role_content_type_witness :
    getContentType "tool" = "input_text" ∧
      ("input_text" : String) =
        (if ("user", V1Content.varr [V1Item.vtext "input_text" "hello"]).1 = "assistant"
         then "output_text" else "input_text") :=
  ⟨claim_C1_role_content_type.1.2 "tool" (by decide),
   claim_C1_role_content_type.2
     [RawMessage.mk "user" (RawContent.rcarr [RawItem.rtext "hello"])]
     ("user", V1Content.varr [V1Item.vtext "input_text" "hello"]) (by decide)
     "input_text" "hello" (by decide)⟩

theorem shouldContinueV2_of_calls (cm : String) (resp : ApiResponse) (hc : Bool)
    (h : 0 < (functionCallsOf resp.output).length) :
    shouldContinueV2 cm resp hc = true := by
  unfold shouldContinueV2
  split_ifs <;> first | rfl | omega

theorem nonStream_stop (opts : ContinuationOptions) (cm : String) (resp : ApiResponse)
    (h : resp.status ≠ "incomplete") :
    nonStreamFinishReason opts cm resp = "stop" := by
  simp only [nonStreamFinishReason, if_neg h]
  split_ifs with hfc h2 h3 h4 h5 <;> try rfl
  exfalso
  have hs := shouldContinueV2_of_calls cm resp
    (match messageTextOf resp with
      | some s => decide (0 < (trimStr s).data.length)
      | none => false) hfc
  simp_all

theorem stream_tc_wait (opts : ContinuationOptions) (cm : String) (tools content : Bool)
    (h : streamFinalFinishReason opts cm false tools content = "tool_calls") :
    opts.alwaysContinueWithTools = false ∧ opts.continuousExecution = false := by
  unfold streamFinalFinishReason at h
  split_ifs at h <;> simp_all

theorem stream_default_stop (cm : String) (tools content : Bool) :
    streamFinalFinishReason defaultContinuationOptions cm false tools content = "stop" := by
  unfold streamFinalFinishReason defaultContinuationOptions
  split_ifs <;> simp_all

theorem nonStream_length (opts : ContinuationOptions) (cm : String) (resp : ApiResponse)
    (h : resp.status = "incomplete") :
    nonStreamFinishReason opts cm resp = "length" := by
  simp [nonStreamFinishReason, h]

theorem stream_length (opts : ContinuationOptions) (cm : String) (tools content : Bool) :
    streamFinalFinishReason opts cm true tools content = "length" := by
  rfl

theorem v1_length (resp : ApiResponse) (h : resp.status = "incomplete")
    (hm : firstMessage resp.output = none) (hfc : functionCallsOf resp.output = []) :
    v1FinishReason resp = "length" := by
  simp [v1FinishReason, h, hm, hfc]

/-- Counterexample to C3 as stated: an upstream response with
`status = "incomplete"` containing one function call and no message is
decoded by the legacy `transformToOpenAIFormat`
(`responses-api.transformer.ts`) with finish reason `tool_calls`,
not `length`. -/
theorem claim_C3_counterexample :
    (ApiResponse.mk "resp1" "o3" "incomplete"
        [.functionCall "call1" "run_tests" "\x7b\x7d" "completed"]).status = "incomplete" ∧
      v1FinishReason
          (ApiResponse.mk "resp1" "o3" "incomplete"
            [.functionCall "call1" "run_tests" "\x7b\x7d" "completed"]) ≠ "length" ∧
      v1FinishReason
          (ApiResponse.mk "resp1" "o3" "incomplete"
            [.functionCall "call1" "run_tests" "\x7b\x7d" "completed"]) = "tool_calls" := by
  decide

/-- Claim C5 (code bug): a stream line whose `data:` payload fails to
parse as JSON (here `"data: {invalid"`, with `JSON.parse` modelled as the
throwing parse) is dropped — the v2 handler and the legacy responses-api
handler emit nothing for it, while only the unified handler passes the
original line through as the spec (and the legacy handler's own `catch`
comment) require. -/
theorem claim_C5_unparseable_line_dropped :
    processLineV2 (fun _ => (none : Option Unit)) (fun _ => none) "data: \x7binvalid" = [] ∧
    processLineRespV1 (fun _ => (none : Option (List String))) "data: \x7binvalid" = [] ∧
    processLineUnified (fun _ => none) "data: \x7binvalid" = ["data: \x7binvalid\n"] := by
  decide


/-- Claim C2: finish-reason policy for tool calls.  For every completed
(non-truncated) decoded response, the v2 non-streaming decoder always
reports `stop` (so `tool_calls` is never reported there, under any
options); the v2 streaming decoder reports `tool_calls` only when both
`alwaysContinueWithTools` and `continuousExecution` are disabled; and
under the default configuration the streaming finish reason is `stop`,
including for a tool-only response with no text content. -/
theorem claim_C2_finish_reason_policy :
    (∀ (opts : ContinuationOptions) (cm : String) (resp : ApiResponse),
        resp.status ≠ "incomplete" → nonStreamFinishReason opts cm resp = "stop") ∧
    (∀ (opts : ContinuationOptions) (cm : String) (hadTools hasContent : Bool),
        streamFinalFinishReason opts cm false hadTools hasContent = "tool_calls" →
          opts.alwaysContinueWithTools = false ∧ opts.continuousExecution = false) ∧
    (∀ (cm : String) (hadTools hasContent : Bool),
        streamFinalFinishReason defaultContinuationOptions cm false hadTools hasContent = "stop") :=
  ⟨nonStream_stop, stream_tc_wait, stream_default_stop⟩

/-- Witness for C2: a completed tool-only response decodes to `stop`
under the default options in both paths, and the streaming `tool_calls`
case certifies that both continuation flags are disabled. -/
theorem claim_C2_finish_reason_policy_witness :
    nonStreamFinishReason defaultContinuationOptions "o3"
        (ApiResponse.mk "r1" "o3" "completed"
          [.functionCall "c1" "list_files" "\x7b\x7d" "completed"]) = "stop" ∧
    streamFinalFinishReason defaultContinuationOptions "gpt-4o" false true false = "stop" ∧
    ((ContinuationOptions.mk false false).alwaysContinueWithTools = false ∧
      (ContinuationOptions.mk false false).continuousExecution = false) :=
  ⟨claim_C2_finish_reason_policy.1 defaultContinuationOptions "o3"
      (ApiResponse.mk "r1" "o3" "completed"
        [.functionCall "c1" "list_files" "\x7b\x7d" "completed"]) (by decide),
   claim_C2_finish_reason_policy.2.2 "gpt-4o" true false,
   claim_C2_finish_reason_policy.2.1 (ContinuationOptions.mk false false) "gpt-4o" true false (by decide)⟩

/-- Claim C3 as amended: an explicitly reported token-limit truncation
decodes to finish reason `length` in the v2 non-streaming path (for every
response, regardless of content or tool calls) and in the v2 streaming
path (on a `response.incomplete` terminal event); in the legacy
`transformToOpenAIFormat` it does so only when the response contains
neither a message output nor function-call outputs. -/
theorem claim_C3_incomplete_length :
    (∀ (opts : ContinuationOptions) (cm : String) (resp : ApiResponse),
        resp.status = "incomplete" → nonStreamFinishReason opts cm resp = "length") ∧
    (∀ (opts : ContinuationOptions) (cm : String) (hadTools hasContent : Bool),
        streamFinalFinishReason opts cm true hadTools hasContent = "length") ∧
    (∀ resp : ApiResponse, resp.status = "incomplete" → firstMessage resp.output = none →
        functionCallsOf resp.output = [] → v1FinishReason resp = "length") :=
  ⟨nonStream_length, stream_length, v1_length⟩

/-- Witness for C3 (amended) at concrete incomplete responses. -/
theorem claim_C3_incomplete_length_witness :
    nonStreamFinishReason defaultContinuationOptions "o3"
        (ApiResponse.mk "r2" "o3" "incomplete"
          [.functionCall "c1" "list_files" "\x7b\x7d" "completed"]) = "length" ∧
    streamFinalFinishReason defaultContinuationOptions "o3" true true true = "length" ∧
    v1FinishReason (ApiResponse.mk "r3" "o3" "incomplete" [.otherOutput "reasoning"]) = "length" :=
  ⟨claim_C3_incomplete_length.1 defaultContinuationOptions "o3"
      (ApiResponse.mk "r2" "o3" "incomplete"
        [.functionCall "c1" "list_files" "\x7b\x7d" "completed"]) (by decide),
   claim_C3_incomplete_length.2.1 defaultContinuationOptions "o3" true true,
   claim_C3_incomplete_length.2.2 (ApiResponse.mk "r3" "o3" "incomplete" [.otherOutput "reasoning"])
     (by decide) (by decide) (by decide)⟩

theorem refusal_text_ne_empty (r : String) : "[REFUSAL] " ++ r ≠ "" := by
  intro h
  have hl := congrArg String.length h
  rw [String.length_append] at hl
  have h10 : ("[REFUSAL] " : String).length = 10 := by decide
  have h0 : ("" : String).length = 0 := rfl
  omega

/-- Claim C9: refusal handling.  Whenever the provider reports a
(non-empty) `refusal` on the message or delta, all four decoders — the
unified and response-format transformers, non-streaming and streaming —
convert it into normal text content prefixed with `"[REFUSAL] "`, and the
streaming paths delete the `refusal` field; no error is thrown (the
handlers are total functions). -/
theorem claim_C9_refusal_to_text (m : ChatMessage) (r : String) (hr : r ≠ "") (h : m.refusal = some r) :
    (unifiedHandleMessage m).content = some ("[REFUSAL] " ++ r) ∧
    (rfHandleMessage m).content = some ("[REFUSAL] " ++ r) ∧
    ((unifiedHandleDelta m).content = some ("[REFUSAL] " ++ r) ∧
      (unifiedHandleDelta m).refusal = none) ∧
    ((rfHandleDelta m).content = some ("[REFUSAL] " ++ r) ∧
      (rfHandleDelta m).refusal = none) := by
  have hne := refusal_text_ne_empty r
  unfold unifiedHandleMessage rfHandleMessage unifiedHandleDelta rfHandleDelta
  simp only [h, if_neg hr]
  cases hp : m.parsed with
  | none => simp [contentFalsy]
  | some p => simp [contentFalsy, hne]

/-- Witness for C9 at a concrete refusal message. -/
theorem claim_C9_refusal_to_text_witness :
    (unifiedHandleMessage (ChatMessage.mk none (some "cannot comply") none)).content =
        some ("[REFUSAL] " ++ "cannot comply") ∧
    (rfHandleMessage (ChatMessage.mk none (some "cannot comply") none)).content =
        some ("[REFUSAL] " ++ "cannot comply") ∧
    ((unifiedHandleDelta (ChatMessage.mk none (some "cannot comply") none)).content =
        some ("[REFUSAL] " ++ "cannot comply") ∧
      (unifiedHandleDelta (ChatMessage.mk none (some "cannot comply") none)).refusal = none) ∧
    ((rfHandleDelta (ChatMessage.mk none (some "cannot comply") none)).content =
        some ("[REFUSAL] " ++ "cannot comply") ∧
      (rfHandleDelta (ChatMessage.mk none (some "cannot comply") none)).refusal = none) :=
  claim_C9_refusal_to_text (ChatMessage.mk none (some "cannot comply") none) "cannot comply"
    (by decide) rfl

/-- Counterexample to C8 as stated: `MaxTokenTransformer.transformRequestIn`
with a configured limit of 100 mutates a request whose `max_tokens` is 200
in place — after the call the caller's request object no longer equals its
original value. -/
theorem claim_C8_counterexample :
    (maxTokenTransformRequestIn (some 100) (MaxTokenRequest.mk (some 200) none)).2 ≠
      MaxTokenRequest.mk (some 200) none := by
  decide

/-- Claim C8 as amended: `transformRequestIn` of the maxtoken transformer
is not pure — it returns the very request object it was given (the two
components of the model's `(returned, caller's request after)` pair are
always equal), leaves the request untouched when no limit is configured,
and otherwise caps both token fields in place with `Math.min`. -/
theorem claim_C8_in_place_mutation :
    (∀ (limit : Option Nat) (req : MaxTokenRequest),
        (maxTokenTransformRequestIn limit req).1 = (maxTokenTransformRequestIn limit req).2) ∧
    (∀ req : MaxTokenRequest, maxTokenTransformRequestIn none req = (req, req)) ∧
    (∀ (l n m : Nat), l ≠ 0 → n ≠ 0 → m ≠ 0 →
        (maxTokenTransformRequestIn (some l) (MaxTokenRequest.mk (some n) (some m))).2 =
          MaxTokenRequest.mk (some (min n l)) (some (min m l))) := by
  refine ⟨?_, ?_, ?_⟩
  · intro limit req
    cases limit with
    | none => rfl
    | some l =>
      by_cases h : l = 0 <;> simp [maxTokenTransformRequestIn, h]
  · intro req
    rfl
  · intro l n m hl hn hm
    simp [maxTokenTransformRequestIn, hl, hn, hm]

/-- Witness for C8 (amended) at a concrete request and limit. -/
theorem claim_C8_in_place_mutation_witness :
    (maxTokenTransformRequestIn (some 100) (MaxTokenRequest.mk (some 200) (some 300))).1 =
        (maxTokenTransformRequestIn (some 100) (MaxTokenRequest.mk (some 200) (some 300))).2 ∧
    maxTokenTransformRequestIn none (MaxTokenRequest.mk (some 200) none) =
        (MaxTokenRequest.mk (some 200) none, MaxTokenRequest.mk (some 200) none) ∧
    (maxTokenTransformRequestIn (some 100) (MaxTokenRequest.mk (some 200) (some 300))).2 =
        MaxTokenRequest.mk (some (min 200 100)) (some (min 300 100)) :=
  ⟨claim_C8_in_place_mutation.1 (some 100) (MaxTokenRequest.mk (some 200) (some 300)),
   claim_C8_in_place_mutation.2.1 (MaxTokenRequest.mk (some 200) none),
   claim_C8_in_place_mutation.2.2 100 200 300 (by decide) (by decide) (by decide)⟩


theorem charOfNatToNat (n : Nat) (h : Nat.isValidChar n) : (Char.ofNat n).toNat = n := by
  simp only [Char.ofNat, Char.toNat]
  rw [dif_pos h]
  simp [Char.ofNatAux, UInt32.toNat, BitVec.toNat_ofNatLt]

theorem toLower_toLower (c : Char) : Char.toLower (Char.toLower c) = Char.toLower c := by
  simp only [Char.toLower]
  split
  · rename_i h
    simp only [ge_iff_le, Bool.and_eq_true, decide_eq_true_eq] at h
    have hv : Nat.isValidChar (c.toNat + 32) := Or.inl (by omega)
    rw [if_neg]
    rw [charOfNatToNat _ hv]
    omega
  · rfl

theorem lowerStr_idem (s : String) : lowerStr (lowerStr s) = lowerStr s := by
  simp only [lowerStr, List.map_map]
  congr 1
  exact List.map_congr_left fun c _ => toLower_toLower c

theorem subOccurs_mono {p q : List Char} (s : List Char) (hpq : p <+: q) :
    subOccurs q s = true → subOccurs p s = true := by
  induction s with
  | nil =>
    intro h
    simp only [subOccurs, List.isEmpty_iff] at h ⊢
    subst h
    exact List.prefix_nil.mp hpq
  | cons c rest ih =>
    intro h
    simp only [subOccurs, Bool.or_eq_true] at h ⊢
    rcases h with h | h
    · left
      have h2 : q <+: (c :: rest) := List.isPrefixOf_iff_prefix.mp h
      exact List.isPrefixOf_iff_prefix.mpr (hpq.trans h2)
    · right
      exact ih h

theorem modelTokenLimit_ge (m : String) : 16384 ≤ modelTokenLimit m := by
  unfold modelTokenLimit
  split_ifs <;> norm_num

theorem jsMax_left (a b : Nat) : a ≤ jsMax a b := by
  unfold jsMax
  split_ifs <;> omega

theorem jsMax_right (a b : Nat) : b ≤ jsMax a b := by
  unfold jsMax
  split_ifs <;> omega

theorem le_ite_split {p : Prop} [Decidable p] {c a b : Nat} (h1 : c ≤ a) (h2 : c ≤ b) :
    c ≤ if p then a else b := by
  split <;> assumption

theorem pos_ite_split {p : Prop} [Decidable p] {a b : Nat} (h1 : 0 < a) (h2 : 0 < b) :
    0 < if p then a else b := by
  split <;> assumption

theorem ite_cap_le (x m : Nat) : (if x > m then m else x) ≤ m := by
  split_ifs <;> omega

theorem jsMax_pos_left {a : Nat} (b : Nat) (h : 0 < a) : 0 < jsMax a b :=
  lt_of_lt_of_le h (jsMax_left a b)

theorem jsMax_pos_right (a : Nat) {b : Nat} (h : 0 < b) : 0 < jsMax a b :=
  lt_of_lt_of_le h (jsMax_right a b)

theorem jsOrNum_pos (a : Option Nat) {d : Nat} (hd : 0 < d) : 0 < jsOrNum a d := by
  cases a with
  | none => exact hd
  | some n =>
    simp only [jsOrNum]
    split_ifs with h
    · exact hd
    · omega

theorem pos_add_chain {a : Nat} (b c d : Nat) (h : 0 < a) : 0 < a + b + c + d := by omega

theorem calc_le_cap (opts : TokenOptions) (model : String) (mt mct tools : Option Nat)
    (msgs : Nat) :
    calculateOptimalTokens opts model mt mct tools msgs ≤ modelTokenLimit (lowerStr model) := by
  simp only [calculateOptimalTokens]
  exact ite_cap_le _ _

theorem calc_pos (opts : TokenOptions) (model : String) (mt mct tools : Option Nat)
    (msgs : Nat) :
    0 < calculateOptimalTokens opts model mt mct tools msgs := by
  have hb : 0 < jsOrNum mt (jsOrNum mct 4000) := jsOrNum_pos mt (jsOrNum_pos mct (by norm_num))
  simp only [calculateOptimalTokens]
  apply pos_ite_split
  · exact lt_of_lt_of_le (by norm_num) (modelTokenLimit_ge _)
  · apply pos_ite_split
    · exact jsMax_pos_right _ (by norm_num)
    · apply pos_ite_split
      · exact jsMax_pos_right _ (by norm_num)
      · apply pos_ite_split
        · exact jsMax_pos_left _ (pos_add_chain _ _ _ hb)
        · exact pos_add_chain _ _ _ hb

theorem calc_tools_floor (model : String) (mt mct : Option Nat) (n msgs : Nat) (hn : 0 < n) :
    15000 ≤ calculateOptimalTokens defaultTokenOptions model mt mct (some n) msgs := by
  have hm : (15000 : Nat) ≤ modelTokenLimit (lowerStr model) :=
    le_trans (by norm_num) (modelTokenLimit_ge _)
  have hc : decide (0 < (some n).getD 0) = true := by
    simp only [Option.getD_some, decide_eq_true_eq]
    exact hn
  simp only [calculateOptimalTokens, defaultTokenOptions, hc, eq_self_iff_true, if_true]
  apply le_ite_split hm
  apply le_ite_split
  · exact le_trans (by norm_num) (jsMax_right _ _)
  · apply le_ite_split
    · exact jsMax_right _ _
    · exact jsMax_right _ _

/-- Claim C7: for every reasoning-capable model, a request with two tool
specifications and a requested limit of 100 tokens computes a
`max_output_tokens` of at least the `minTokensForTools` floor (default
15000), not the raw 100. -/
theorem claim_C7_min_tokens_floor (model : String) (mct : Option Nat) (msgs : Nat)
    (h : isReasoningModel model = true) :
    15000 ≤ calculateOptimalTokens defaultTokenOptions model (some 100) mct (some 2) msgs :=
  calc_tools_floor model (some 100) mct 2 msgs (by norm_num)

/-- Witness for C7 on the `o3` model. -/
theorem claim_C7_min_tokens_floor_witness :
    isReasoningModel "o3" = true ∧
      15000 ≤ calculateOptimalTokens defaultTokenOptions "o3" (some 100) none (some 2) 1 :=
  ⟨by decide, claim_C7_min_tokens_floor "o3" none 1 (by decide)⟩

theorem calc_simple (model : String) (mt mct : Option Nat) (msgs : Nat)
    (hr : isReasoningModel (lowerStr model) = false)
    (h4m : containsSub (lowerStr model) "o4-mini" = false)
    (h3 : containsSub (lowerStr model) "o3" = false)
    (hmsg : msgs ≤ 5) :
    calculateOptimalTokens defaultTokenOptions model mt mct none msgs =
      if jsOrNum mt (jsOrNum mct 4000) > modelTokenLimit (lowerStr model)
      then modelTokenLimit (lowerStr model)
      else jsOrNum mt (jsOrNum mct 4000) := by
  have hmsg2 : ¬ msgs > 5 := by omega
  simp only [calculateOptimalTokens, defaultTokenOptions, Option.getD_none, hr, h4m, h3,
    Bool.false_eq_true, if_false, if_neg hmsg2, decide_eq_true_eq, lt_self_iff_false,
    add_zero]


/-- Counterexample to C6 as stated: on `gpt-4o` with one tool and a
requested limit of 4000, `calculateOptimalTokens` yields 15000, but
feeding 15000 back in yields 22000 — the calculation is not idempotent
because the tool overhead is added again on re-application. -/
theorem claim_C6_counterexample :
    calculateOptimalTokens defaultTokenOptions "gpt-4o"
        (some (calculateOptimalTokens defaultTokenOptions "gpt-4o" (some 4000) none (some 1) 1))
        none (some 1) 1 ≠
      calculateOptimalTokens defaultTokenOptions "gpt-4o" (some 4000) none (some 1) 1 := by
  decide

theorem calc_idem (model : String) (x : Nat) (mct : Option Nat) (msgs : Nat)
    (h1 : containsSub (lowerStr model) "o1" = false)
    (h3 : containsSub (lowerStr model) "o3" = false)
    (h4 : containsSub (lowerStr model) "o4" = false)
    (hmsg : msgs ≤ 5) :
    calculateOptimalTokens defaultTokenOptions model
        (some (calculateOptimalTokens defaultTokenOptions model (some x) mct none msgs))
        mct none msgs =
      calculateOptimalTokens defaultTokenOptions model (some x) mct none msgs := by
  have hr : isReasoningModel (lowerStr model) = false := by
    unfold isReasoningModel
    rw [lowerStr_idem, h1, h3, h4]
    rfl
  have h4m : containsSub (lowerStr model) "o4-mini" = false := by
    cases hc : containsSub (lowerStr model) "o4-mini"
    · rfl
    · exfalso
      have hp : ("o4".data : List Char) <+: "o4-mini".data := by decide
      have h2 := subOccurs_mono (lowerStr model).data hp hc
      have h4x : subOccurs "o4".data (lowerStr model).data = false := h4
      rw [h2] at h4x
      exact Bool.noConfusion h4x
  set y := calculateOptimalTokens defaultTokenOptions model (some x) mct none msgs with hy
  have hpos : 0 < y := by
    rw [hy]
    exact calc_pos defaultTokenOptions model (some x) mct none msgs
  have hcap : y ≤ modelTokenLimit (lowerStr model) := by
    rw [hy]
    exact calc_le_cap defaultTokenOptions model (some x) mct none msgs
  rw [calc_simple model (some y) mct msgs hr h4m h3 hmsg]
  have hjs : jsOrNum (some y) (jsOrNum mct 4000) = y := by
    simp only [jsOrNum]
    rw [if_neg (Nat.pos_iff_ne_zero.mp hpos)]
  rw [hjs, if_neg (by omega : ¬ y > modelTokenLimit (lowerStr model))]

/-- Claim C6 as amended: the computed total never exceeds the model's
maximum from the capability table (for all options and inputs); with
tools present it is at least the default `minTokensForTools` floor of
15000; and re-application is idempotent on requests with no tools, at
most 5 messages, and a model whose lowercased name contains none of
`o1`/`o3`/`o4` (no reasoning overhead) — the configuration under which no
overhead is re-added. -/
theorem claim_C6_bounds_and_restricted_idempotence :
    (∀ (opts : TokenOptions) (model : String) (mt mct tools : Option Nat) (msgs : Nat),
        calculateOptimalTokens opts model mt mct tools msgs ≤ modelTokenLimit (lowerStr model)) ∧
    (∀ (model : String) (mt mct : Option Nat) (n msgs : Nat), 0 < n →
        15000 ≤ calculateOptimalTokens defaultTokenOptions model mt mct (some n) msgs) ∧
    (∀ (model : String) (x : Nat) (mct : Option Nat) (msgs : Nat),
        containsSub (lowerStr model) "o1" = false →
        containsSub (lowerStr model) "o3" = false →
        containsSub (lowerStr model) "o4" = false →
        msgs ≤ 5 →
        calculateOptimalTokens defaultTokenOptions model
            (some (calculateOptimalTokens defaultTokenOptions model (some x) mct none msgs))
            mct none msgs =
          calculateOptimalTokens defaultTokenOptions model (some x) mct none msgs) :=
  ⟨calc_le_cap, calc_tools_floor, calc_idem⟩

/-- Witness for C6 (amended) at concrete models and limits. -/
theorem claim_C6_bounds_and_restricted_idempotence_witness :
    calculateOptimalTokens defaultTokenOptions "o3" (some 100) none (some 2) 1 ≤
        modelTokenLimit (lowerStr "o3") ∧
    15000 ≤ calculateOptimalTokens defaultTokenOptions "gpt-4o" (some 4000) none (some 1) 1 ∧
    calculateOptimalTokens defaultTokenOptions "gpt-4.1"
        (some (calculateOptimalTokens defaultTokenOptions "gpt-4.1" (some 4000) none none 1))
        none none 1 =
      calculateOptimalTokens defaultTokenOptions "gpt-4.1" (some 4000) none none 1 :=
  ⟨claim_C6_bounds_and_restricted_idempotence.1 defaultTokenOptions "o3" (some 100) none (some 2) 1,
   claim_C6_bounds_and_restricted_idempotence.2.1 "gpt-4o" (some 4000) none 1 1 (by decide),
   claim_C6_bounds_and_restricted_idempotence.2.2 "gpt-4.1" 4000 none 1 (by decide) (by decide) (by decide)
     (by decide)⟩

theorem sanitizeItem_jstr (it : V2OutItem) : ∃ s, (sanitizeItem it).text = JText.jstr s := by
  rcases it with ⟨ty, t, url⟩
  cases t <;> exact ⟨_, rfl⟩

theorem sanitizeMsg_content (m : V2OutMsg) :
    (sanitizeMsg m).content ≠ [] ∧
      ∀ it ∈ (sanitizeMsg m).content, ∃ s, it.text = JText.jstr s := by
  by_cases h : m.content.isEmpty = true
  · simp only [sanitizeMsg, h, eq_self_iff_true, if_true]
    refine ⟨by simp, ?_⟩
    intro it hit
    simp only [List.mem_singleton] at hit
    rw [hit]
    exact ⟨_, rfl⟩
  · simp only [sanitizeMsg, h, if_false]
    refine ⟨?_, ?_⟩
    · intro hmap
      apply h
      rw [List.isEmpty_iff]
      exact List.map_eq_nil_iff.mp hmap
    · intro it hit
      rcases List.mem_map.mp hit with ⟨it0, _, rfl⟩
      exact sanitizeItem_jstr it0

/-- Claim C10: output sanitisation of the v2 message encoder.  For every
input message list — including messages whose content is null, undefined,
an empty array, or contains null items or non-string text — every message
produced by `transformMessagesV2` has a non-empty content array in which
every item's `text` is a genuine string value. -/
theorem claim_C10_sanitized_encoding : ∀ (msgs : List V2InMsg), ∀ m ∈ transformMessagesV2 msgs,
    m.content ≠ [] ∧ ∀ it ∈ m.content, ∃ s, it.text = JText.jstr s := by
  intro msgs m hm
  rcases List.mem_map.mp hm with ⟨m0, _, rfl⟩
  exact sanitizeMsg_content m0

/-- Witness for C10: a `user` message with null content encodes to a
single `input_text` item with empty string text. -/
theorem claim_C10_sanitized_encoding_witness :
    (V2OutMsg.mk "user" [⟨"input_text", JText.jstr "", none⟩]).content ≠ [] ∧
      ∀ it ∈ (V2OutMsg.mk "user" [⟨"input_text", JText.jstr "", none⟩]).content,
        ∃ s, it.text = JText.jstr s :=
  claim_C10_sanitized_encoding [V2InMsg.mk "user" MsgContent.mnull none JText.jundef JText.jundef]
    (V2OutMsg.mk "user" [⟨"input_text", JText.jstr "", none⟩]) (by decide)

end Llms
